import Mathlib

/-!
Verification of the STL Analysis Pipeline (balub/swift-prints, backend slicer
services) against its natural-language specification.

Shallow embedding conventions:
* Python `str` values are modelled as `List Char`; file bytes as `List Nat`
  (each entry < 256 where it matters).
* Python `float` arithmetic is modelled over `ℚ` for finite values, with an
  explicit `PyNum` type carrying the infinity / NaN cases that can arise from
  `float(...)` conversion.  The spec states its numeric claims in exact
  (real-number) terms, which the rational semantics captures.
* Fallible Python code (try/except) is modelled with `Option` / `Except`.

Embedded source files:
* `app/services/slicer/stl_validator.py`   (STLValidator)
* `app/services/slicer/prusa_runner.py`    (PrusaSlicerRunner)
* `app/services/slicer/analysis_service.py` (analyze_stl_task, get_analysis_status)
-/

set_option autoImplicit false

/-! ## Python string primitives -/

/-- Characters treated as whitespace by Python `str.strip()` / `str.split()`
(ASCII subset; the sources only ever contain ASCII whitespace). -/
def pyIsSpace (c : Char) : Bool :=
  c = ' ' || c = '\t' || c = '\n' || c = '\r' || c = '\x0b' || c = '\x0c'

/-- Model of Python `str.strip()` (no argument): remove leading and trailing
whitespace. -/
def stripPyWS (l : List Char) : List Char :=
  ((l.dropWhile pyIsSpace).reverse.dropWhile pyIsSpace).reverse

/-- Accumulator worker for `pyWords`. -/
def pyWordsAux : List Char → List Char → List (List Char)
  | acc, [] => if acc.isEmpty then [] else [acc.reverse]
  | acc, c :: cs =>
    if pyIsSpace c then
      if acc.isEmpty then pyWordsAux [] cs else acc.reverse :: pyWordsAux [] cs
    else pyWordsAux (c :: acc) cs

/-- Model of Python `str.split()` (no argument): split on whitespace runs,
dropping empty pieces. -/
def pyWords (l : List Char) : List (List Char) := pyWordsAux [] l

/-- Accumulator worker for `splitNL`. -/
def splitNLAux : List Char → List Char → List (List Char)
  | acc, [] => [acc.reverse]
  | acc, c :: cs =>
    if c = '\n' then acc.reverse :: splitNLAux [] cs else splitNLAux (c :: acc) cs

/-- Model of Python `str.split("\n")`: split at every newline, keeping empty
pieces. -/
def splitNL (l : List Char) : List (List Char) := splitNLAux [] l

/-- Space-joined concatenation, the shape of the compound duration strings
(inverse of `pyWords` on whitespace-free nonempty words). -/
def joinSpace : List (List Char) → List Char
  | [] => []
  | [p] => p
  | p :: ps => p ++ ' ' :: joinSpace ps

/-- Newline-joined concatenation (inverse of `splitNL` on newline-free lines). -/
def joinNL : List (List Char) → List Char
  | [] => []
  | [p] => p
  | p :: ps => p ++ '\n' :: joinNL ps

/-- Prefix test on `List Char`, the model of Python `str.startswith`. -/
def startsWithL (l pre : List Char) : Bool := pre.isPrefixOf l

/-- Decimal rendering of a natural number, for embedded f-string messages. -/
def natToChars (n : Nat) : List Char := (Nat.repr n).data

/-! ## Python float values and `float(str)` conversion -/

/-- Value of a Python float as far as the pipeline observes it: a finite
rational, a signed infinity, or NaN. -/
inductive PyNum where
  | fin (q : ℚ)
  | inf (neg : Bool)
  | nan
deriving DecidableEq, Repr

/-- Python float addition on `PyNum` (rational semantics for finite values). -/
def pyAdd : PyNum → PyNum → PyNum
  | .nan, _ => .nan
  | _, .nan => .nan
  | .inf s, .inf t => if s = t then .inf s else .nan
  | .inf s, .fin _ => .inf s
  | .fin _, .inf t => .inf t
  | .fin a, .fin b => .fin (a + b)

/-- Division of a Python float by a positive rational constant (the divisors
60 and 3600 in `_parse_time_string`). -/
def pyDivC : PyNum → ℚ → PyNum
  | .nan, _ => .nan
  | .inf s, _ => .inf s
  | .fin a, d => .fin (a / d)

/-- Numeric value of a digit list under base 10. -/
def natOfDigits (l : List Char) : Nat :=
  l.foldl (fun n c => n * 10 + (c.toNat - 48)) 0

/-- Exponent suffix of a Python float literal: empty, or `e`/`E` followed by an
optionally signed digit string. -/
def parseExpPart : List Char → Option Int
  | [] => some 0
  | c :: r =>
    if c = 'e' || c = 'E' then
      match r with
      | '+' :: d =>
        if d ≠ [] ∧ d.all Char.isDigit then some ((natOfDigits d : Nat) : Int) else none
      | '-' :: d =>
        if d ≠ [] ∧ d.all Char.isDigit then some (-((natOfDigits d : Nat) : Int)) else none
      | d =>
        if d ≠ [] ∧ d.all Char.isDigit then some ((natOfDigits d : Nat) : Int) else none
    else none

/-- Unsigned numeric body of a Python float literal:
`digits [. digits] [exp]` or `. digits [exp]`, with at least one digit.
(Digit-group underscores, which the sources never produce, are not modelled.) -/
def parseUnsigned (l : List Char) : Option ℚ :=
  let intD := l.takeWhile Char.isDigit
  let rest1 := l.dropWhile Char.isDigit
  match rest1 with
  | '.' :: r2 =>
    let fracD := r2.takeWhile Char.isDigit
    let rest2 := r2.dropWhile Char.isDigit
    if intD = [] ∧ fracD = [] then none
    else
      match parseExpPart rest2 with
      | some e =>
        some (((natOfDigits intD : ℚ) + (natOfDigits fracD : ℚ) / 10 ^ fracD.length) * 10 ^ e)
      | none => none
  | r2 =>
    if intD = [] then none
    else
      match parseExpPart r2 with
      | some e => some ((natOfDigits intD : ℚ) * 10 ^ e)
      | none => none

/-- Case-insensitive comparison against a lowercase keyword. -/
def lowerEq (l s : List Char) : Bool := l.map Char.toLower = s

/-- Model of Python `float(str)`: strip whitespace, optional sign, then either
an `inf`/`infinity`/`nan` keyword or a decimal literal.  Returns `none` where
Python raises `ValueError`. -/
def parseFloat (l0 : List Char) : Option PyNum :=
  let l := stripPyWS l0
  let signBody : Bool × List Char :=
    match l with
    | '+' :: r => (false, r)
    | '-' :: r => (true, r)
    | r => (false, r)
  let neg := signBody.1
  let body := signBody.2
  if lowerEq body ['i', 'n', 'f'] || lowerEq body ['i', 'n', 'f', 'i', 'n', 'i', 't', 'y'] then
    some (.inf neg)
  else if lowerEq body ['n', 'a', 'n'] then
    some .nan
  else
    match parseUnsigned body with
    | some q => some (.fin (if neg then -q else q))
    | none => none

/-! ## `PrusaSlicerRunner._parse_time_string` -/

/-- Token-classification loop of `_parse_time_string`: for each whitespace part,
the first of the letters `h` / `m` / `s` it contains selects the field, and the
part with that letter removed is converted by `float`; a conversion failure is
the exception path (`none`). -/
def timeLoop : List (List Char) → PyNum → PyNum → PyNum → Option (PyNum × PyNum × PyNum)
  | [], h, m, s => some (h, m, s)
  | p :: rest, h, m, s =>
    if p.contains 'h' then
      match parseFloat (p.filter (fun c => c ≠ 'h')) with
      | some v => timeLoop rest v m s
      | none => none
    else if p.contains 'm' then
      match parseFloat (p.filter (fun c => c ≠ 'm')) with
      | some v => timeLoop rest h v s
      | none => none
    else if p.contains 's' then
      match parseFloat (p.filter (fun c => c ≠ 's')) with
      | some v => timeLoop rest h m v
      | none => none
    else timeLoop rest h m s

/-- Shallow embedding of `PrusaSlicerRunner._parse_time_string`
(`prusa_runner.py` lines 241-262): lowercase, remove commas, split on
whitespace, classify each part by the unit letter it contains, and return
`hours + minutes/60 + seconds/3600`; any `float` conversion failure is caught
and the default `1.0` (one hour) is returned. -/
def parse_time_string (t : List Char) : PyNum :=
  let parts := pyWords ((t.map Char.toLower).filter (fun c => c ≠ ','))
  match timeLoop parts (.fin 0) (.fin 0) (.fin 0) with
  | none => .fin 1
  | some (h, m, s) => pyAdd (pyAdd h (pyDivC m 60)) (pyDivC s 3600)

/-! ## Geometry-pass complexity score -/

/-- Shallow embedding of the complexity computation of
`PrusaSlicerRunner._analyze_stl_geometry` (the embedded analysis script in
`prusa_runner.py` lines 182-239): `min(triangle_count / 10000.0, 5.0)`. -/
def complexity_score (triangleCount : Nat) : ℚ :=
  min ((triangleCount : ℚ) / 10000) 5

/-! ## IEEE-754 binary32 decoding (struct.unpack "<3f") -/

/-- Little-endian 32-bit word from four bytes. -/
def le32 (b0 b1 b2 b3 : Nat) : Nat :=
  b0 + 256 * b1 + 65536 * b2 + 16777216 * b3

/-- Value of an IEEE-754 binary32 word: finite values are exact rationals. -/
inductive F32 where
  | fin (q : ℚ)
  | inf (neg : Bool)
  | nan
deriving DecidableEq, Repr

/-- Decode four little-endian bytes as an IEEE-754 binary32 value
(`struct.unpack("<f", ...)` in the validator). -/
def decodeF32 (b0 b1 b2 b3 : Nat) : F32 :=
  let bits : Nat := le32 b0 b1 b2 b3
  let sign : Nat := bits / 2 ^ 31
  let expo : Nat := bits / 2 ^ 23 % 256
  let frac : Nat := bits % 2 ^ 23
  if expo = 255 then (if frac = 0 then .inf (sign = 1) else .nan)
  else
    -- magnitude: `frac / 2^149` for subnormals, `(2^23 + frac) * 2^(expo-150)`
    -- for normals, written as one integer ratio over `2^150`
    let mnum : Int :=
      if expo = 0 then (frac : Int) * 2 else ((2 ^ 23 + frac : Nat) : Int) * 2 ^ expo
    .fin (Rat.divInt (if sign = 1 then -mnum else mnum) (2 ^ 150))

/-- The coordinate sanity test of `_validate_binary_stl`: Python
`abs(coord) > 10000` (False for NaN, True for infinities). -/
def coordBad : F32 → Bool
  | .fin q => decide (10000 < |q|)
  | .inf _ => true
  | .nan => false

/-- Split a byte list into consecutive 4-byte little-endian binary32 values
(incomplete trailing bytes are dropped; callers always pass 48 bytes). -/
def coordsOfBytes : List Nat → List F32
  | b0 :: b1 :: b2 :: b3 :: rest => decodeF32 b0 b1 b2 b3 :: coordsOfBytes rest
  | _ => []

/-! ## `STLValidator._validate_binary_stl` -/

/-- Sampled-triangle loop of `_validate_binary_stl`
(`for i in range(min(10, triangle_count))`): triangle `i` occupies the 50
bytes at offset `84 + 50*i`; its first 48 bytes decode as 12 binary32
coordinates (normal plus three vertices), each checked by `coordBad`. -/
def checkTris (data : List Nat) (i : Nat) : Nat → Bool × Option (List Char)
  | 0 => (true, none)
  | k + 1 =>
    let rec50 := (data.drop (84 + 50 * i)).take 50
    if rec50.length ≠ 50 then
      (false, some ("Invalid triangle data at triangle ".data ++ natToChars i))
    else if ((coordsOfBytes (rec50.take 48)).find? coordBad).isSome then
      (false, some ("Invalid coordinate value".data))
    else checkTris data (i + 1) k

/-- Declared little-endian triangle count of a binary STL byte stream
(bytes 80..83), when present. -/
def declaredTriCount (data : List Nat) : Option Nat :=
  match (data.drop 80).take 4 with
  | [b0, b1, b2, b3] => some (le32 b0 b1 b2 b3)
  | _ => none

/-- Shallow embedding of `STLValidator._validate_binary_stl`
(`stl_validator.py` lines 81-134): skip the 80-byte header, read the 4-byte
little-endian triangle count, require `0 < count ≤ 1,000,000`, require the
exact size `80 + 4 + count * 50`, then decode up to 10 leading triangle
records and reject any coordinate of magnitude above 10000. -/
def validate_binary_stl (data : List Nat) : Bool × Option (List Char) :=
  match (data.drop 80).take 4 with
  | [b0, b1, b2, b3] =>
    let n := le32 b0 b1 b2 b3
    if n = 0 then (false, some ("STL file contains no triangles").data)
    else if n > 1000000 then
      (false, some ("STL file too complex: ".data ++ natToChars n ++
        (" triangles (max 1,000,000)").data))
    else
      let expected := 80 + 4 + n * 50
      if data.length ≠ expected then
        (false, some ("Invalid binary STL: size mismatch (expected ".data ++
          natToChars expected ++ ", got ".data ++ natToChars data.length ++ ")".data))
      else checkTris data 0 (min 10 n)
  | _ => (false, some ("Invalid binary STL: missing triangle count").data)

/-! ## `STLValidator._validate_ascii_stl` -/

/-- Vertex-line check of `_validate_ascii_stl`: the stripped line must start
with `vertex`, its whitespace words 1..3 must be exactly three tokens, and
each token must convert with `float`.  Returns the rejection message, if any
(`lineNo` is the human line number used in the message). -/
def checkVertex (ln : List Char) (lineNo : Nat) : Option (List Char) :=
  if ¬ startsWithL (stripPyWS ln) ("vertex").data then
    some ("Expected vertex at line ".data ++ natToChars lineNo)
  else
    let coords := ((pyWords (stripPyWS ln)).drop 1).take 3
    if coords.length ≠ 3 then
      some ("Invalid vertex format at line ".data ++ natToChars lineNo)
    else if coords.any (fun c => (parseFloat c).isNone) then
      some ("Invalid vertex coordinates at line ".data ++ natToChars lineNo)
    else none

/-- Facet-scanning loop of `_validate_ascii_stl` (`while i < len(lines) - 1`),
phrased over the suffix `lines.drop i`; `i` is carried for the line numbers in
messages.  A line starting with `facet normal` demands the 6-line block shape
after it (`outer loop`, three vertex lines, `endloop`, `endfacet`), counts one
triangle and advances by 7 lines; any other line is skipped. -/
def asciiLoop : List (List Char) → Nat → Nat → Except (List Char) Nat
  | [], _, count => .ok count
  | [_], _, count => .ok count
  | ln :: rest1, i, count =>
    if startsWithL (stripPyWS ln) ("facet normal").data then
      match rest1 with
      | l1 :: l2 :: l3 :: l4 :: l5 :: l6 :: rest7 =>
        if ¬ (stripPyWS l1 = ("outer loop").data) then
          .error ("Expected \x27outer loop\x27 at line ".data ++ natToChars (i + 2))
        else
          match checkVertex l2 (i + 3) with
          | some e => .error e
          | none =>
            match checkVertex l3 (i + 4) with
            | some e => .error e
            | none =>
              match checkVertex l4 (i + 5) with
              | some e => .error e
              | none =>
                if ¬ (stripPyWS l5 = ("endloop").data) then
                  .error ("Expected \x27endloop\x27 at line ".data ++ natToChars (i + 6))
                else if ¬ (stripPyWS l6 = ("endfacet").data) then
                  .error ("Expected \x27endfacet\x27 at line ".data ++ natToChars (i + 7))
                else asciiLoop rest7 (i + 7) (count + 1)
      | _ => .error ("Incomplete facet at line ".data ++ natToChars (i + 1))
    else asciiLoop rest1 (i + 1) count

/-- Facet-count result of the ASCII scan on a file content (triangle count on
success, rejection message on failure); `_validate_ascii_stl` keeps this count
internal, it is exposed here to state the counting claim. -/
def asciiCount (content : List Char) : Except (List Char) Nat :=
  asciiLoop ((splitNL (stripPyWS content)).drop 1) 1 0

/-- Line-level body of `_validate_ascii_stl`, applied to the list
`content.strip().split("\n")`: the first line must start with `solid` and
the last with `endsolid`; the facet loop counts well-formed facet blocks;
zero triangles or more than 1,000,000 is a rejection. -/
def validateAsciiLines (lines : List (List Char)) : Bool × Option (List Char) :=
  if ¬ startsWithL (stripPyWS (lines.headD [])) ("solid").data then
    (false, some ("ASCII STL must start with \x27solid\x27").data)
  else if ¬ startsWithL (stripPyWS (lines.getLastD [])) ("endsolid").data then
    (false, some ("ASCII STL must end with \x27endsolid\x27").data)
  else
    match asciiLoop (lines.drop 1) 1 0 with
    | .error e => (false, some e)
    | .ok n =>
      if n = 0 then (false, some ("ASCII STL contains no triangles").data)
      else if n > 1000000 then
        (false, some ("STL file too complex: ".data ++ natToChars n ++
          (" triangles (max 1,000,000)").data))
      else (true, none)

/-- Shallow embedding of `STLValidator._validate_ascii_stl`
(`stl_validator.py` lines 136-205) on the decoded file text. -/
def validate_ascii_stl (content : List Char) : Bool × Option (List Char) :=
  validateAsciiLines (splitNL (stripPyWS content))

/-! ## UTF-8 decoding with `errors="ignore"` -/

/-- Continuation-byte test for UTF-8. -/
def isContByte (b : Nat) : Bool := 128 ≤ b && b ≤ 191

/-- Fuel-indexed worker for `decodeUtf8Ignore`; the fuel is an upper bound on
the number of bytes still to consume (each step consumes at least one). -/
def decodeUtf8Fuel : Nat → List Nat → List Char
  | 0, _ => []
  | _ + 1, [] => []
  | fuel + 1, b :: rest =>
    if b < 128 then Char.ofNat b :: decodeUtf8Fuel fuel rest
    else if 194 ≤ b && b ≤ 223 then
      match rest with
      | b2 :: rest2 =>
        if isContByte b2 then
          Char.ofNat ((b - 192) * 64 + (b2 - 128)) :: decodeUtf8Fuel fuel rest2
        else decodeUtf8Fuel fuel (b2 :: rest2)
      | [] => []
    else if 224 ≤ b && b ≤ 239 then
      match rest with
      | b2 :: b3 :: rest3 =>
        if (if b = 224 then 160 ≤ b2 && b2 ≤ 191
            else if b = 237 then 128 ≤ b2 && b2 ≤ 159
            else isContByte b2) then
          if isContByte b3 then
            Char.ofNat ((b - 224) * 4096 + (b2 - 128) * 64 + (b3 - 128)) ::
              decodeUtf8Fuel fuel rest3
          else decodeUtf8Fuel fuel (b3 :: rest3)
        else decodeUtf8Fuel fuel (b2 :: b3 :: rest3)
      | [b2] =>
        if (if b = 224 then 160 ≤ b2 && b2 ≤ 191
            else if b = 237 then 128 ≤ b2 && b2 ≤ 159
            else isContByte b2) then []
        else decodeUtf8Fuel fuel [b2]
      | [] => []
    else if 240 ≤ b && b ≤ 244 then
      match rest with
      | b2 :: b3 :: b4 :: rest4 =>
        if (if b = 240 then 144 ≤ b2 && b2 ≤ 191
            else if b = 244 then 128 ≤ b2 && b2 ≤ 143
            else isContByte b2) then
          if isContByte b3 then
            if isContByte b4 then
              Char.ofNat ((b - 240) * 262144 + (b2 - 128) * 4096 +
                (b3 - 128) * 64 + (b4 - 128)) :: decodeUtf8Fuel fuel rest4
            else decodeUtf8Fuel fuel (b4 :: rest4)
          else decodeUtf8Fuel fuel (b3 :: b4 :: rest4)
        else decodeUtf8Fuel fuel (b2 :: b3 :: b4 :: rest4)
      | _ => []
    else decodeUtf8Fuel fuel rest

/-- Model of Python `bytes.decode("utf-8", errors="ignore")`: well-formed
sequences decode to their code points, ill-formed bytes are dropped.  The
pipeline only feeds it ASCII-relevant content; multi-byte resynchronisation
after an error follows the usual maximal-subpart convention closely enough
for the claims, which never exercise non-ASCII bytes. -/
def decodeUtf8Ignore (l : List Nat) : List Char := decodeUtf8Fuel l.length l

/-! ## `STLValidator._validate_stl_format` and `validate_file` -/

/-- Byte rendering of the ASCII marker `solid`. -/
def solidBytes : List Nat := [115, 111, 108, 105, 100]

/-- Shallow embedding of `STLValidator._validate_stl_format`
(`stl_validator.py` lines 65-79): read the leading 80 bytes; if they start
with `solid` the file is validated under the ASCII rules (on the decoded
text), otherwise under the binary rules. -/
def validate_stl_format (data : List Nat) : Bool × Option (List Char) :=
  if solidBytes.isPrefixOf (data.take 80) then
    validate_ascii_stl (decodeUtf8Ignore data)
  else validate_binary_stl data

/-- Input of `STLValidator.validate_file`: a path with its observable
filesystem behaviour.  `statErr` / `readErr` model exceptions raised by
`stat()` and `open()` (caught by the outer and format-level handlers);
`bytes` is the file content, whose length is the stat size. -/
structure PFile where
  pexists : Bool
  statErr : Option (List Char)
  suffixLower : List Char
  readErr : Option (List Char)
  bytes : List Nat

/-- Shallow embedding of `STLValidator.validate_file`
(`stl_validator.py` lines 22-63): existence, size bounds, `.stl` suffix,
format validation; every internal exception is converted to a rejection pair
(`_validate_geometry` always succeeds). -/
def validate_file (f : PFile) : Bool × Option (List Char) :=
  if ¬ f.pexists then (false, some ("File does not exist").data)
  else
    match f.statErr with
    | some e => (false, some ("Validation error: ".data ++ e))
    | none =>
      let size := f.bytes.length
      if size > 50 * 1024 * 1024 then
        (false, some ("File too large: ".data ++ natToChars size ++
          " bytes (max 52428800)".data))
      else if size < 84 then
        (false, some ("File too small: ".data ++ natToChars size ++
          " bytes (min 84)".data))
      else if f.suffixLower ≠ (".stl").data then
        (false, some ("File must have .stl extension").data)
      else
        match f.readErr with
        | some e => (false, some ("Failed to read STL file: ".data ++ e))
        | none => validate_stl_format f.bytes

/-! ## `PrusaSlicerRunner._run_slicer` and the worker task -/

/-- Hard wall-clock bound passed to `subprocess.run` in `_run_slicer`
(`timeout=300`, five minutes). -/
def runSlicerTimeoutSeconds : Nat := 300

/-- Observable outcome of the engine subprocess: it either exceeds the
wall-clock bound or completes with an exit code, diagnostic text, and the
presence or absence of the output artifact. -/
inductive SlicerProcOutcome where
  | timedOut
  | completed (exitCode : Int) (stderrTxt : List Char) (outputExists : Bool)

/-- Shallow embedding of `PrusaSlicerRunner._run_slicer`
(`prusa_runner.py` lines 99-136): `TimeoutExpired` is re-raised as the
distinct timeout error; nonzero exit and missing output raise inside the try
block and are re-wrapped by the generic `except Exception` clause. -/
def run_slicer (o : SlicerProcOutcome) : Except (List Char) Unit :=
  match o with
  | .timedOut => .error ("PrusaSlicer analysis timed out").data
  | .completed rc err out =>
    if rc ≠ 0 then
      .error ("Docker execution failed: PrusaSlicer failed: ".data ++ err)
    else if ¬ out then
      .error ("Docker execution failed: PrusaSlicer did not generate output file").data
    else .ok ()

/-- Shallow embedding of the error surface of `PrusaSlicerRunner.analyze_stl`
(`prusa_runner.py` lines 29-70): any failure of `_run_slicer` is re-wrapped
as a `Slicer analysis error`. -/
def runner_analyze (o : SlicerProcOutcome) : Except (List Char) Unit :=
  match run_slicer o with
  | .error e => .error ("Slicer analysis error: ".data ++ e)
  | .ok _ => .ok ()

/-- Outcome of `_prepare_analysis_workspace`: success, or an exception raised
after / before the workspace directory came into existence. -/
inductive WsPrepOutcome where
  | ok
  | fail (afterCreate : Bool) (msg : List Char)

/-- Environment determining one execution of `analyze_stl_task`: the file
lookup, the storage-path check, the validator verdict, the workspace
preparation, the engine run, and the database commit. -/
structure TaskEnv where
  fileId : List Char
  storagePath : List Char
  fileFound : Bool
  filePathExists : Bool
  validationResult : Bool × Option (List Char)
  wsPrep : WsPrepOutcome
  slicer : SlicerProcOutcome
  dbCommit : Option (List Char)

/-- Terminal celery state of one task execution. -/
inductive TaskFinal where
  | success
  | failure (msg : List Char)
deriving DecidableEq

/-- Observable trace of one execution of `analyze_stl_task`: the
`update_state(PROGRESS, ...)` metas in order, the terminal state, and whether
the job workspace directory exists afterwards. -/
structure TaskRun where
  updates : List (Nat × List Char)
  final : TaskFinal
  workspaceExists : Bool

/-- Error text produced by the top-level `except` clause of the task. -/
def failMsg (e : List Char) : List Char := "Analysis failed: ".data ++ e

/-- Workspace existence after the task-level `except` cleanup: when the
`service` local is defined the cleanup removes the directory if present;
before `service` is assigned the inner `NameError` is swallowed by the bare
`except: pass` (but no workspace exists on those paths). -/
def exceptCleanup (serviceDefined wsExists : Bool) : Bool :=
  if serviceDefined then false else wsExists

/-- Shallow embedding of `analyze_stl_task` (`analysis_service.py` lines
128-236): progress updates at 10/20/30/50/80/100, validation before workspace
acquisition, engine run inside the workspace, unconditional workspace cleanup
on the success path and in the `except` handler, and a wrapped failure
message on every error path. -/
def runTask (env : TaskEnv) : TaskRun :=
  let u1 := [(10, ("Initializing analysis...").data)]
  if ¬ env.fileFound then
    { updates := u1,
      final := .failure (failMsg ("File ".data ++ env.fileId ++ " not found".data)),
      workspaceExists := exceptCleanup false false }
  else
    let u2 := u1 ++ [(20, ("Validating STL file...").data)]
    if ¬ env.filePathExists then
      { updates := u2,
        final := .failure (failMsg ("File not found at ".data ++ env.storagePath)),
        workspaceExists := exceptCleanup true false }
    else if ¬ env.validationResult.1 then
      { updates := u2,
        final := .failure (failMsg ("Invalid STL file: ".data ++
          (match env.validationResult.2 with
           | some m => m
           | none => ("None").data))),
        workspaceExists := exceptCleanup true false }
    else
      let u3 := u2 ++ [(30, ("Preparing analysis workspace...").data)]
      match env.wsPrep with
      | .fail afterCreate msg =>
        { updates := u3,
          final := .failure (failMsg msg),
          workspaceExists := exceptCleanup true afterCreate }
      | .ok =>
        let u4 := u3 ++ [(50, ("Running PrusaSlicer analysis...").data)]
        match runner_analyze env.slicer with
        | .error e =>
          { updates := u4,
            final := .failure (failMsg e),
            workspaceExists := exceptCleanup true true }
        | .ok _ =>
          let u5 := u4 ++ [(80, ("Saving analysis results...").data)]
          match env.dbCommit with
          | some e =>
            { updates := u5,
              final := .failure (failMsg e),
              workspaceExists := exceptCleanup true true }
          | none =>
            { updates := u5 ++ [(100, ("Analysis completed").data)],
              final := .success,
              workspaceExists := false }

/-! ## `get_analysis_status` observations -/

/-- One `AnalysisStatus` value as returned by `get_analysis_status`
(`analysis_service.py` lines 67-100). -/
structure StatusObs where
  status : List Char
  progress : Nat
  message : List Char
  err : Option (List Char)
deriving DecidableEq

/-- Status of a job still waiting in the queue (celery `PENDING`). -/
def pendingObs : StatusObs :=
  { status := ("pending").data, progress := 0,
    message := ("Analysis queued").data, err := none }

/-- Status reported for a `PROGRESS` meta. -/
def progressObs (p : Nat × List Char) : StatusObs :=
  { status := ("processing").data, progress := p.1, message := p.2, err := none }

/-- Status reported for a terminal celery state: `SUCCESS` maps to progress
100, `FAILURE` maps to progress 0 with the exception text as message and
error. -/
def finalObs : TaskFinal → StatusObs
  | .success =>
    { status := ("completed").data, progress := 100,
      message := ("Analysis completed").data, err := none }
  | .failure m =>
    { status := ("failed").data, progress := 0, message := m, err := some m }

/-- The chronological sequence of `get_analysis_status` answers over one job:
queued, then each committed progress update, then the terminal state. -/
def observations (env : TaskEnv) : List StatusObs :=
  pendingObs :: (runTask env).updates.map progressObs ++ [finalObs (runTask env).final]

/-! ## Duration-token machinery (claims about `_parse_time_string`) -/

/-- One duration token `<number><unit>`: the numeric body together with the
rational value Python float conversion gives it. -/
inductive TimeTok where
  | hTok (body : List Char) (q : ℚ)
  | mTok (body : List Char) (q : ℚ)
  | sTok (body : List Char) (q : ℚ)

/-- Characters of a token: body followed by its unit letter. -/
def TimeTok.chars : TimeTok → List Char
  | .hTok b _ => b ++ ['h']
  | .mTok b _ => b ++ ['m']
  | .sTok b _ => b ++ ['s']

/-- Discriminant of the token kind, used to say a token set is a subset
(at most one token per unit). -/
def TimeTok.kindIdx : TimeTok → Nat
  | .hTok _ _ => 0
  | .mTok _ _ => 1
  | .sTok _ _ => 2

/-- A numeric token body as the parser can see it: nonempty, free of
whitespace, commas, uppercase letters and the three unit letters. -/
def cleanBody (b : List Char) : Prop :=
  b ≠ [] ∧ ∀ c ∈ b,
    pyIsSpace c = false ∧ c ≠ ',' ∧ Char.toLower c = c ∧ c ≠ 'h' ∧ c ≠ 'm' ∧ c ≠ 's'

/-- Well-formedness of a duration token: clean body that `float` converts to
the token's finite value. -/
def TimeTok.wf : TimeTok → Prop
  | .hTok b q => cleanBody b ∧ parseFloat b = some (.fin q)
  | .mTok b q => cleanBody b ∧ parseFloat b = some (.fin q)
  | .sTok b q => cleanBody b ∧ parseFloat b = some (.fin q)

/-- Hour value contributed by a token list on top of default `d` (last hour
token wins, as consecutive assignments do in the source). -/
def hVal0 : List TimeTok → ℚ → ℚ
  | [], d => d
  | .hTok _ q :: rest, _ => hVal0 rest q
  | _ :: rest, d => hVal0 rest d

/-- Minute value contributed by a token list on top of default `d`. -/
def mVal0 : List TimeTok → ℚ → ℚ
  | [], d => d
  | .mTok _ q :: rest, _ => mVal0 rest q
  | _ :: rest, d => mVal0 rest d

/-- Second value contributed by a token list on top of default `d`. -/
def sVal0 : List TimeTok → ℚ → ℚ
  | [], d => d
  | .sTok _ q :: rest, _ => sVal0 rest q
  | _ :: rest, d => sVal0 rest d

/-- A whitespace part on which the token loop raises (its selected unit letter
is present but the remainder does not convert with `float`) — the only way
`_parse_time_string` reaches its `except` clause and the 1-hour default. -/
def partFails (p : List Char) : Prop :=
  (p.contains 'h' = true ∧ parseFloat (p.filter (fun c => c ≠ 'h')) = none) ∨
  (p.contains 'h' = false ∧ p.contains 'm' = true ∧
    parseFloat (p.filter (fun c => c ≠ 'm')) = none) ∨
  (p.contains 'h' = false ∧ p.contains 'm' = false ∧ p.contains 's' = true ∧
    parseFloat (p.filter (fun c => c ≠ 's')) = none)

/-! ## Facet-block machinery (claims about `_validate_ascii_stl`) -/

/-- The seven raw lines of one facet block of a text STL file. -/
structure FacetBlk where
  fl : List Char
  ol : List Char
  va : List Char
  vb : List Char
  vc : List Char
  el : List Char
  ef : List Char

/-- A vertex line as `_validate_ascii_stl` accepts it: stripped form starts
with `vertex`, words 1..3 are exactly three tokens and each converts with
`float`. -/
def vertexWF (l : List Char) : Prop :=
  startsWithL (stripPyWS l) ("vertex").data = true ∧
  (((pyWords (stripPyWS l)).drop 1).take 3).length = 3 ∧
  ∀ c ∈ ((pyWords (stripPyWS l)).drop 1).take 3, (parseFloat c).isSome = true

/-- Well-formedness of a facet block under the validator's checks. -/
def FacetBlk.wf (b : FacetBlk) : Prop :=
  startsWithL (stripPyWS b.fl) ("facet normal").data = true ∧
  stripPyWS b.ol = ("outer loop").data ∧
  vertexWF b.va ∧ vertexWF b.vb ∧ vertexWF b.vc ∧
  stripPyWS b.el = ("endloop").data ∧ stripPyWS b.ef = ("endfacet").data

/-- The lines of a facet block, in file order. -/
def FacetBlk.lines (b : FacetBlk) : List (List Char) :=
  [b.fl, b.ol, b.va, b.vb, b.vc, b.el, b.ef]

/-- The lines of a facet block with one required line removed; slots:
0 = facet-normal line, 1 = outer-loop line, 2/3/4 = the vertex lines,
5 = endloop line, 6 = endfacet line. -/
def FacetBlk.linesDrop (b : FacetBlk) : Nat → List (List Char)
  | 0 => [b.ol, b.va, b.vb, b.vc, b.el, b.ef]
  | 1 => [b.fl, b.va, b.vb, b.vc, b.el, b.ef]
  | 2 => [b.fl, b.ol, b.vb, b.vc, b.el, b.ef]
  | 3 => [b.fl, b.ol, b.va, b.vc, b.el, b.ef]
  | 4 => [b.fl, b.ol, b.va, b.vb, b.el, b.ef]
  | 5 => [b.fl, b.ol, b.va, b.vb, b.vc, b.ef]
  | _ => [b.fl, b.ol, b.va, b.vb, b.vc, b.el]

/-- Newline-freedom of a line (needed so joining and re-splitting a file is
the identity). -/
def noNL (l : List Char) : Prop := '\n' ∉ l

/-! ## Concrete sample inputs used by counterexamples and witnesses -/

/-- Binary STL bytes: declared count 1, correct size 134, but one vertex
coordinate decodes to 32768.0 (bytes `00 00 00 47`), violating the
magnitude bound. -/
def cexBinData : List Nat :=
  List.replicate 80 0 ++ [1, 0, 0, 0] ++ ([0, 0, 0, 71] ++ List.replicate 46 0)

/-- Binary STL bytes: declared count 1, correct size 134, all coordinates
zero — accepted. -/
def goodBinData : List Nat :=
  List.replicate 80 0 ++ [1, 0, 0, 0] ++ List.replicate 50 0

/-- Bytes that form a size-correct binary STL (count 1, 134 bytes, zero
coordinates) whose header happens to begin with `solid`. -/
def demoDispatchData : List Nat :=
  solidBytes ++ List.replicate 75 0 ++ [1, 0, 0, 0] ++ List.replicate 50 0

/-- A well-formed two-facet text STL file. -/
def asciiGood : String :=
"solid test
facet normal 0 0 1
outer loop
vertex 0 0 0
vertex 1 0 0
vertex 0 1 0
endloop
endfacet
facet normal 0 0 1
outer loop
vertex 0 0 1
vertex 1 0 1
vertex 0 1 1
endloop
endfacet
endsolid test"

/-- `asciiGood` with the first block's `facet normal` line removed. -/
def asciiNoFacetLine : String :=
"solid test
outer loop
vertex 0 0 0
vertex 1 0 0
vertex 0 1 0
endloop
endfacet
facet normal 0 0 1
outer loop
vertex 0 0 1
vertex 1 0 1
vertex 0 1 1
endloop
endfacet
endsolid test"

/-- A task environment in which validation rejects the file. -/
def rejectEnv : TaskEnv :=
  { fileId := ("f1").data, storagePath := ("/tmp/f1.stl").data,
    fileFound := true, filePathExists := true,
    validationResult := (false, some ("ASCII STL contains no triangles").data),
    wsPrep := .ok, slicer := .timedOut, dbCommit := none }

/-- A task environment in which the engine subprocess times out. -/
def timeoutEnv : TaskEnv :=
  { fileId := ("f2").data, storagePath := ("/tmp/f2.stl").data,
    fileFound := true, filePathExists := true,
    validationResult := (true, none),
    wsPrep := .ok, slicer := .timedOut, dbCommit := none }

/-- A file on which `stat()` raises. -/
def statFailFile : PFile :=
  { pexists := true, statErr := some ("boom").data,
    suffixLower := (".stl").data, readErr := none, bytes := List.replicate 100 0 }

/-- A readable `.stl` file whose `open()` raises. -/
def readFailFile : PFile :=
  { pexists := true, statErr := none,
    suffixLower := (".stl").data, readErr := some ("io error").data,
    bytes := List.replicate 100 0 }

/-- A concrete well-formed facet block used by witnesses. -/
def sampleBlk : FacetBlk :=
  { fl := ("facet normal 0 0 1").data, ol := ("outer loop").data,
    va := ("vertex 0 0 0").data, vb := ("vertex 1 0 0").data,
    vc := ("vertex 0 1 0").data, el := ("endloop").data, ef := ("endfacet").data }

/-! # Theorems -/

/-! ## Support lemmas -/

lemma checkTris_shape (data : List Nat) :
    ∀ (k i : Nat), checkTris data i k = (true, none) ∨
      ∃ m, checkTris data i k = (false, some m) := by
  intro k
  induction k with
  | zero => intro i; left; rfl
  | succ k ih =>
    intro i
    unfold checkTris
    dsimp only
    split
    · right; exact ⟨_, rfl⟩
    · split
      · right; exact ⟨_, rfl⟩
      · exact ih (i + 1)

lemma validate_binary_shape (data : List Nat) :
    validate_binary_stl data = (true, none) ∨
      ∃ m, validate_binary_stl data = (false, some m) := by
  unfold validate_binary_stl
  dsimp only
  split
  · split
    · right; exact ⟨_, rfl⟩
    · split
      · right; exact ⟨_, rfl⟩
      · split
        · right; exact ⟨_, rfl⟩
        · exact checkTris_shape _ _ _
  · right; exact ⟨_, rfl⟩

lemma validate_ascii_lines_shape (lines : List (List Char)) :
    validateAsciiLines lines = (true, none) ∨
      ∃ m, validateAsciiLines lines = (false, some m) := by
  unfold validateAsciiLines
  dsimp only
  split
  · right; exact ⟨_, rfl⟩
  · split
    · right; exact ⟨_, rfl⟩
    · split
      · right; exact ⟨_, rfl⟩
      · split
        · right; exact ⟨_, rfl⟩
        · split
          · right; exact ⟨_, rfl⟩
          · left; rfl

lemma validate_ascii_shape (content : List Char) :
    validate_ascii_stl content = (true, none) ∨
      ∃ m, validate_ascii_stl content = (false, some m) :=
  validate_ascii_lines_shape _

lemma validate_format_shape (data : List Nat) :
    validate_stl_format data = (true, none) ∨
      ∃ m, validate_stl_format data = (false, some m) := by
  unfold validate_stl_format
  split
  · exact validate_ascii_shape _
  · exact validate_binary_shape _

/-! ## C8 -/

/-- C8: the geometry-pass complexity score `min(n/10000, 5.0)` is
non-decreasing in the triangle count, never exceeds the maximum 5.0, and
equals 5.0 for every count of at least 50000. -/
theorem spec_C8_complexity_score :
    (∀ a b : Nat, a ≤ b → complexity_score a ≤ complexity_score b) ∧
    (∀ n : Nat, complexity_score n ≤ 5) ∧
    (∀ n : Nat, 50000 ≤ n → complexity_score n = 5) ∧
    (∀ n : Nat, complexity_score n = min ((n : ℚ) / 10000) 5) := by
  refine ⟨?_, ?_, ?_, fun n => rfl⟩
  · intro a b hab
    have h : (a : ℚ) ≤ b := by exact_mod_cast hab
    exact min_le_min (by gcongr) le_rfl
  · intro n
    exact min_le_right _ _
  · intro n hn
    have h : (50000 : ℚ) ≤ (n : ℚ) := by exact_mod_cast hn
    have h5 : (5 : ℚ) ≤ (n : ℚ) / 10000 := by
      rw [le_div_iff₀ (by norm_num)]
      linarith
    unfold complexity_score
    exact min_eq_right h5

/-- C8 witness: the monotonicity, bound and saturation at concrete counts. -/
theorem spec_C8_witness :
    complexity_score 3 ≤ complexity_score 7 ∧
    complexity_score 123 ≤ 5 ∧
    complexity_score 50000 = 5 :=
  ⟨spec_C8_complexity_score.1 3 7 (by norm_num),
   spec_C8_complexity_score.2.1 123,
   spec_C8_complexity_score.2.2.1 50000 (by norm_num)⟩

/-! ## C10 -/

set_option maxRecDepth 1000000 in
/-- C10: the binary/text validation dispatch is decided solely by whether the
leading bytes begin with ASCII `solid`; a size-correct binary file whose
header begins with `solid` is validated under the text rules (and here
rejected), its binary triangle-count field never being consulted. -/
theorem spec_C10_format_dispatch :
    (∀ data : List Nat,
      validate_stl_format data =
        if solidBytes.isPrefixOf (data.take 80) then
          validate_ascii_stl (decodeUtf8Ignore data)
        else validate_binary_stl data) ∧
    solidBytes.isPrefixOf (demoDispatchData.take 80) = true ∧
    validate_binary_stl demoDispatchData = (true, none) ∧
    validate_stl_format demoDispatchData =
      validate_ascii_stl (decodeUtf8Ignore demoDispatchData) ∧
    (validate_stl_format demoDispatchData).1 = false :=
  ⟨fun _ => rfl, by decide, rfl, rfl, by decide⟩

/-! ## C1 -/

/-- C1: every execution of the worker task reaches a terminal state
(success or failure) and afterwards the job workspace directory no longer
exists — on every exit path, including validation rejection, workspace
preparation failure, engine error/timeout/missing output, and database
failure. -/
theorem spec_C1_workspace_released :
    ∀ env : TaskEnv,
      ((runTask env).final = .success ∨ ∃ m, (runTask env).final = .failure m) ∧
      (runTask env).workspaceExists = false := by
  intro env
  obtain ⟨fid, sp, ff, fpe, ⟨vb, vm⟩, wsp, sl, dbc⟩ := env
  cases ff <;> cases fpe <;> cases vb <;> cases wsp <;> cases dbc <;>
    rcases sl with _ | ⟨rc, err, out⟩ <;>
      simp [runTask, exceptCleanup, runner_analyze, run_slicer] <;> split <;> simp

/-! ## C9 -/

/-- C9: `validate_file` is total — every input yields a `(is_valid, message)`
pair, valid exactly when the message is absent, and injected internal
exceptions (`stat()` or `open()` failures) are converted into rejection pairs
rather than propagated. -/
theorem spec_C9_validate_file_total :
    (∀ f : PFile, validate_file f = (true, none) ∨
      ∃ m, validate_file f = (false, some m)) ∧
    (∀ (f : PFile) (e : List Char), f.pexists = true → f.statErr = some e →
      validate_file f = (false, some ("Validation error: ".data ++ e))) ∧
    (∀ (f : PFile) (e : List Char), f.pexists = true → f.statErr = none →
      f.bytes.length ≤ 50 * 1024 * 1024 → 84 ≤ f.bytes.length →
      f.suffixLower = (".stl").data → f.readErr = some e →
      validate_file f = (false, some ("Failed to read STL file: ".data ++ e))) := by
  refine ⟨?_, ?_, ?_⟩
  · intro f
    unfold validate_file
    dsimp only
    split
    · right; exact ⟨_, rfl⟩
    · split
      · right; exact ⟨_, rfl⟩
      · split
        · right; exact ⟨_, rfl⟩
        · split
          · right; exact ⟨_, rfl⟩
          · split
            · right; exact ⟨_, rfl⟩
            · split
              · right; exact ⟨_, rfl⟩
              · exact validate_format_shape _
  · intro f e hex hse
    simp [validate_file, hex, hse]
  · intro f e hex hse hle hge hsuf hre
    have h1 : ¬ (f.bytes.length > 50 * 1024 * 1024) := by omega
    have h2 : ¬ (f.bytes.length < 84) := by omega
    simp [validate_file, hex, hse, hsuf, hre, h1, h2]

/-- C9 witness: concrete injected `stat()` and `open()` failures are
rejections with the converted messages. -/
theorem spec_C9_witness :
    validate_file statFailFile = (false, some ("Validation error: boom").data) ∧
    validate_file readFailFile =
      (false, some ("Failed to read STL file: io error").data) := by
  constructor
  · rw [spec_C9_validate_file_total.2.1 statFailFile ("boom").data rfl rfl]
    decide
  · rw [spec_C9_validate_file_total.2.2 readFailFile ("io error").data rfl rfl
      (by decide) (by decide) rfl rfl]
    decide

/-! ## C6 -/

/-- C6: an engine subprocess exceeding the hard 300-second (5-minute)
wall-clock bound yields the distinct timeout error, different from the
nonzero-exit engine error and from the missing-output error; the worker marks
such a job FAILED (terminal — the model runs each job once, no retry) with
the wrapped timeout text, and the workspace is released. -/
theorem spec_C6_timeout_distinct :
    runSlicerTimeoutSeconds = 300 ∧
    run_slicer .timedOut = .error ("PrusaSlicer analysis timed out").data ∧
    (∀ (rc : Int) (err : List Char) (out : Bool), rc ≠ 0 →
      run_slicer (.completed rc err out) =
        .error ("Docker execution failed: PrusaSlicer failed: ".data ++ err)) ∧
    (∀ err : List Char,
      run_slicer (.completed 0 err false) =
        .error ("Docker execution failed: PrusaSlicer did not generate output file").data) ∧
    (∀ err : List Char,
      ("PrusaSlicer analysis timed out").data ≠
        "Docker execution failed: PrusaSlicer failed: ".data ++ err) ∧
    ("PrusaSlicer analysis timed out").data ≠
      ("Docker execution failed: PrusaSlicer did not generate output file").data ∧
    (∀ err : List Char,
      ("Docker execution failed: PrusaSlicer did not generate output file").data ≠
        "Docker execution failed: PrusaSlicer failed: ".data ++ err) ∧
    (∀ env : TaskEnv, env.fileFound = true → env.filePathExists = true →
      env.validationResult.1 = true → env.wsPrep = .ok → env.slicer = .timedOut →
      (runTask env).final =
        .failure (failMsg ("Slicer analysis error: ".data ++
          ("PrusaSlicer analysis timed out").data)) ∧
      (runTask env).workspaceExists = false) := by
  refine ⟨rfl, rfl, ?_, fun _ => rfl, ?_, by decide, ?_, ?_⟩
  · intro rc err out hrc
    simp [run_slicer, hrc]
  · intro err h
    have hA : (("PrusaSlicer analysis timed out").data).head? = some 'P' := rfl
    rw [h] at hA
    have hB : (("Docker execution failed: PrusaSlicer failed: ").data ++ err).head? =
        some 'D' := rfl
    rw [hB] at hA
    exact absurd hA (by decide)
  · intro err h
    have hA : (("Docker execution failed: PrusaSlicer did not generate output file").data)[37]? =
        some 'd' := rfl
    rw [h] at hA
    have hB : (("Docker execution failed: PrusaSlicer failed: ").data ++ err)[37]? =
        some 'f' := rfl
    rw [hB] at hA
    exact absurd hA (by decide)
  · intro env h1 h2 h3 h4 h5
    obtain ⟨fid, sp, ff, fpe, ⟨vb, vm⟩, wsp, sl, dbc⟩ := env
    simp only at h1 h2 h3 h4 h5
    subst h1
    subst h2
    subst h3
    subst h4
    subst h5
    simp [runTask, exceptCleanup, runner_analyze, run_slicer, failMsg]

/-- C6 witness: the timeout environment fails with the wrapped timeout text,
and a nonzero-exit run yields the distinct engine error. -/
theorem spec_C6_witness :
    (runTask timeoutEnv).final =
      .failure (failMsg ("Slicer analysis error: ".data ++
        ("PrusaSlicer analysis timed out").data)) ∧
    run_slicer (.completed 1 ("boom").data true) =
      .error ("Docker execution failed: PrusaSlicer failed: ".data ++ ("boom").data) :=
  ⟨(spec_C6_timeout_distinct.2.2.2.2.2.2.2 timeoutEnv rfl rfl rfl rfl rfl).1,
   spec_C6_timeout_distinct.2.2.1 1 ("boom").data true (by decide)⟩

/-! ## C2 -/

lemma checkTris_all_good (data : List Nat) (n : Nat) (hlen : data.length = 84 + 50 * n) :
    ∀ (k i : Nat), i + k ≤ n →
      (∀ j, i ≤ j → j < i + k →
        ∀ c ∈ coordsOfBytes (((data.drop (84 + 50 * j)).take 50).take 48),
          coordBad c = false) →
      checkTris data i k = (true, none) := by
  intro k
  induction k with
  | zero => intro i _ _; rfl
  | succ k ih =>
    intro i hik hgood
    unfold checkTris
    dsimp only
    have hlen50 : ((data.drop (84 + 50 * i)).take 50).length = 50 := by
      rw [List.length_take, List.length_drop]
      omega
    rw [if_neg (by simp [hlen50])]
    have hfind :
        (coordsOfBytes (((data.drop (84 + 50 * i)).take 50).take 48)).find? coordBad = none :=
      List.find?_eq_none.mpr (fun x hx => by
        simp [hgood i le_rfl (by omega) x hx])
    rw [if_neg (by simp [hfind])]
    exact ih (i + 1) (by omega) (fun j hj1 hj2 x hx => hgood j (by omega) (by omega) x hx)

/-- C2 amended: for a binary file with declared count `n` (positive and within
the 1,000,000 ceiling), a size different from `80 + 4 + n*50` is always
rejected; when the size matches, the file is accepted provided every sampled
coordinate of the first `min 10 n` triangle records is within the magnitude
bound — the sampling step that the claim's "otherwise it accepts" omits. -/
theorem spec_C2_binary_size_check :
    ∀ (data : List Nat) (n : Nat),
      declaredTriCount data = some n → 0 < n → n ≤ 1000000 →
      ((data.length ≠ 80 + 4 + n * 50 → (validate_binary_stl data).1 = false) ∧
       (data.length = 80 + 4 + n * 50 →
        (∀ i, i < min 10 n →
          ∀ c ∈ coordsOfBytes (((data.drop (84 + 50 * i)).take 50).take 48),
            coordBad c = false) →
        validate_binary_stl data = (true, none))) := by
  intro data n hd h0 hceil
  unfold declaredTriCount at hd
  unfold validate_binary_stl
  split at hd
  case h_1 b0 b1 b2 b3 heq =>
    injection hd with hn
    subst hn
    rw [if_neg (by omega), if_neg (by omega)]
    constructor
    · intro hne
      rw [if_pos (by omega)]
    · intro he hgood
      rw [if_neg (by omega)]
      exact checkTris_all_good data (le32 b0 b1 b2 b3) (by omega)
        (min 10 (le32 b0 b1 b2 b3)) 0 (by omega)
        (fun j hj1 hj2 x hx => hgood j (by omega) x hx)
  case h_2 =>
    exact absurd hd (by simp)

set_option maxRecDepth 1000000 in
/-- C2 counterexample: a size-correct binary file (declared count 1, exactly
`80 + 4 + 50` bytes) that validation nevertheless rejects, because a sampled
coordinate decodes to 32768.0, above the magnitude bound — refuting the
claim's "otherwise it accepts". -/
theorem spec_C2_counterexample :
    declaredTriCount cexBinData = some 1 ∧
    cexBinData.length = 80 + 4 + 1 * 50 ∧
    (validate_binary_stl cexBinData).1 = false ∧
    (validate_binary_stl cexBinData).2 = some ("Invalid coordinate value").data := by
  exact ⟨by decide, by decide, by decide, by decide⟩

set_option maxRecDepth 1000000 in
/-- C2 witness: a size-correct all-zero one-triangle file is accepted, and the
same file truncated by four bytes is rejected. -/
theorem spec_C2_witness :
    validate_binary_stl goodBinData = (true, none) ∧
    (validate_binary_stl (goodBinData.take 130)).1 = false := by
  constructor
  · exact (spec_C2_binary_size_check goodBinData 1 (by decide) (by decide) (by decide)).2
      (by decide)
      (fun i hi => by
        have h0 : i = 0 := by omega
        subst h0
        decide)
  · exact (spec_C2_binary_size_check (goodBinData.take 130) 1 (by decide) (by decide)
      (by decide)).1 (by decide)

/-! ## C5 -/

lemma timeLoop_skip_all :
    ∀ (parts : List (List Char)),
      (∀ p ∈ parts,
        p.contains 'h' = false ∧ p.contains 'm' = false ∧ p.contains 's' = false) →
      ∀ h m s, timeLoop parts h m s = some (h, m, s) := by
  intro parts
  induction parts with
  | nil => intro _ h m s; rfl
  | cons p rest ih =>
    intro hall h m s
    obtain ⟨hh, hm, hs⟩ := hall p (by simp)
    simp only [timeLoop, hh, hm, hs, Bool.false_eq_true, if_false]
    exact ih (fun q hq => hall q (by simp [hq])) h m s

lemma timeLoop_fails :
    ∀ (parts : List (List Char)), (∃ p ∈ parts, partFails p) →
      ∀ h m s, timeLoop parts h m s = none := by
  intro parts
  induction parts with
  | nil => rintro ⟨p, hp, _⟩; cases hp
  | cons p rest ih =>
    rintro ⟨q, hq, hqf⟩ h m s
    rcases List.mem_cons.mp hq with rfl | hq2
    · rcases hqf with ⟨h1, h2⟩ | ⟨h1, h2, h3⟩ | ⟨h1, h2, h3, h4⟩
      · simp only [timeLoop, h1, h2, if_true]
      · simp only [timeLoop, h1, h2, h3, Bool.false_eq_true, if_false, if_true]
      · simp only [timeLoop, h1, h2, h3, h4, Bool.false_eq_true, if_false, if_true]
    · by_cases hh : p.contains 'h' = true
      · cases hpf : parseFloat (p.filter fun c => decide (c ≠ 'h')) with
        | none => simp only [timeLoop, hh, hpf, if_true]
        | some v =>
          simp only [timeLoop, hh, hpf, if_true]
          exact ih ⟨_, hq2, hqf⟩ v m s
      · rw [Bool.not_eq_true] at hh
        by_cases hm2 : p.contains 'm' = true
        · cases hpf : parseFloat (p.filter fun c => decide (c ≠ 'm')) with
          | none =>
            simp only [timeLoop, hh, hm2, hpf, Bool.false_eq_true, if_false, if_true]
          | some v =>
            simp only [timeLoop, hh, hm2, hpf, Bool.false_eq_true, if_false, if_true]
            exact ih ⟨_, hq2, hqf⟩ h v s
        · rw [Bool.not_eq_true] at hm2
          by_cases hs2 : p.contains 's' = true
          · cases hpf : parseFloat (p.filter fun c => decide (c ≠ 's')) with
            | none =>
              simp only [timeLoop, hh, hm2, hs2, hpf, Bool.false_eq_true, if_false, if_true]
            | some v =>
              simp only [timeLoop, hh, hm2, hs2, hpf, Bool.false_eq_true, if_false, if_true]
              exact ih ⟨_, hq2, hqf⟩ h m v
          · rw [Bool.not_eq_true] at hs2
            simp only [timeLoop, hh, hm2, hs2, Bool.false_eq_true, if_false]
            exact ih ⟨_, hq2, hqf⟩ h m s

/-- C5 counterexample: the input `42` contains no recognized time token, yet
the parser returns 0.0, not the claimed 1-hour default. -/
theorem spec_C5_counterexample :
    pyWords ((("42").data.map Char.toLower).filter (fun c => c ≠ ',')) = [['4', '2']] ∧
    (List.contains ['4', '2'] 'h' = false ∧ List.contains ['4', '2'] 'm' = false ∧
      List.contains ['4', '2'] 's' = false) ∧
    parse_time_string ("42").data = .fin 0 ∧
    PyNum.fin 0 ≠ PyNum.fin 1 := by
  refine ⟨by decide, by decide, ?_, by simp⟩
  simp +decide [parse_time_string, pyWords, pyWordsAux, timeLoop, pyAdd, pyDivC]

/-- C5 amended: when no whitespace part of the lowercased, comma-stripped
input contains any of the letters h/m/s, the parser returns 0.0 (the loop sets
nothing); the 1-hour default 1.0 is returned exactly on the exception path,
i.e. when some part selects a unit letter but its remainder fails float
conversion. -/
theorem spec_C5_default_fallback :
    (∀ t : List Char,
      (∀ p ∈ pyWords ((t.map Char.toLower).filter (fun c => c ≠ ',')),
        p.contains 'h' = false ∧ p.contains 'm' = false ∧ p.contains 's' = false) →
      parse_time_string t = .fin 0) ∧
    (∀ t : List Char,
      (∃ p ∈ pyWords ((t.map Char.toLower).filter (fun c => c ≠ ',')), partFails p) →
      parse_time_string t = .fin 1) := by
  constructor
  · intro t hall
    unfold parse_time_string
    dsimp only
    rw [timeLoop_skip_all _ hall]
    simp [pyAdd, pyDivC]
  · intro t hex
    unfold parse_time_string
    dsimp only
    rw [timeLoop_fails _ hex]

/-- C5 witness: a token-free string parses to 0.0 and a string whose only part
has a unit letter with an unconvertible remainder parses to the 1.0 default. -/
theorem spec_C5_witness :
    parse_time_string ("42").data = .fin 0 ∧
    parse_time_string ("abch").data = .fin 1 :=
  ⟨spec_C5_default_fallback.1 ("42").data (by decide),
   spec_C5_default_fallback.2 ("abch").data
     ⟨['a', 'b', 'c', 'h'], by decide, by unfold partFails; decide⟩⟩

/-! ## C7 -/

/-- C7 counterexample: for a validation-rejected job the chronological status
observations carry progresses 0, 10, 20 and then 0 at FAILED — the sequence
decreases at the terminal transition, and the failed status does not preserve
the last reported progress (20); the error field is the wrapped exception
text, not the bare rejection reason. -/
theorem spec_C7_counterexample :
    (observations rejectEnv).map StatusObs.progress = [0, 10, 20, 0] ∧
    ¬ List.Chain' (fun a b => a ≤ b) ((observations rejectEnv).map StatusObs.progress) ∧
    (runTask rejectEnv).updates.getLast? = some (20, ("Validating STL file...").data) ∧
    (finalObs (runTask rejectEnv).final).progress = 0 ∧
    (runTask rejectEnv).final =
      .failure ("Analysis failed: Invalid STL file: ASCII STL contains no triangles").data := by
  refine ⟨by decide, ?_, by decide, by decide, by decide⟩
  intro hch
  rw [show (observations rejectEnv).map StatusObs.progress = [0, 10, 20, 0] from by decide]
    at hch
  simp [List.chain'_cons] at hch

/-- C7 amended: the progress values are non-decreasing across the queued and
processing observations, and on the success path across all observations; on
failure the reported progress resets to 0 rather than keeping the last
reported value, and a validation rejection yields a terminal FAILED whose
error text wraps the rejection reason. -/
theorem spec_C7_progress_monotone :
    (∀ env : TaskEnv,
      List.Chain' (fun a b => a ≤ b)
        ((pendingObs :: (runTask env).updates.map progressObs).map StatusObs.progress)) ∧
    (∀ env : TaskEnv, (runTask env).final = .success →
      List.Chain' (fun a b => a ≤ b) ((observations env).map StatusObs.progress)) ∧
    (∀ (env : TaskEnv) (r : List Char), env.fileFound = true → env.filePathExists = true →
      env.validationResult = (false, some r) →
      (runTask env).final = .failure (failMsg ("Invalid STL file: ".data ++ r)) ∧
      (finalObs (runTask env).final).progress = 0 ∧
      (runTask env).updates.map Prod.fst = [10, 20]) := by
  refine ⟨?_, ?_, ?_⟩
  · intro env
    obtain ⟨fid, sp, ff, fpe, ⟨vb, vm⟩, wsp, sl, dbc⟩ := env
    cases ff <;> cases fpe <;> cases vb <;> cases wsp <;> cases dbc <;>
      rcases sl with _ | ⟨rc, err, out⟩ <;>
        simp [runTask, exceptCleanup, runner_analyze, run_slicer,
          pendingObs, progressObs] <;>
          split <;> simp [pendingObs, progressObs]
  · intro env h
    obtain ⟨fid, sp, ff, fpe, ⟨vb, vm⟩, wsp, sl, dbc⟩ := env
    cases ff <;> cases fpe <;> cases vb <;> cases wsp <;> cases dbc <;>
      rcases sl with _ | ⟨rc, err, out⟩ <;>
        simp_all [runTask, observations, exceptCleanup, runner_analyze, run_slicer,
          pendingObs, progressObs, finalObs]
    all_goals
      rcases eq_or_ne rc 0 with rfl | hrc <;> cases out <;>
        simp_all [pendingObs, progressObs, finalObs]
  · intro env r h1 h2 h3
    obtain ⟨fid, sp, ff, fpe, ⟨vb, vm⟩, wsp, sl, dbc⟩ := env
    simp only at h1 h2 h3
    subst h1
    subst h2
    rw [Prod.mk.injEq] at h3
    obtain ⟨hv1, hv2⟩ := h3
    subst hv1
    subst hv2
    simp [runTask, exceptCleanup, finalObs, failMsg]

/-- C7 witness: the amended facts at the concrete rejected job. -/
theorem spec_C7_witness :
    (runTask rejectEnv).final =
      .failure (failMsg ("Invalid STL file: ".data ++
        ("ASCII STL contains no triangles").data)) ∧
    (finalObs (runTask rejectEnv).final).progress = 0 ∧
    (runTask rejectEnv).updates.map Prod.fst = [10, 20] :=
  spec_C7_progress_monotone.2.2 rejectEnv ("ASCII STL contains no triangles").data
    rfl rfl rfl

/-! ## C4 -/

lemma map_id_of_eq {l : List Char} {f : Char → Char} (h : ∀ c ∈ l, f c = c) :
    l.map f = l := by
  induction l with
  | nil => rfl
  | cons c t ih => simp [h c (by simp), ih (fun x hx => h x (by simp [hx]))]

lemma tok_chars_facts {t : TimeTok} (h : t.wf) :
    t.chars ≠ [] ∧ ∀ c ∈ t.chars, pyIsSpace c = false ∧ c ≠ ',' ∧ Char.toLower c = c := by
  cases t <;>
    · rename_i b q
      obtain ⟨⟨hne, hcl⟩, _⟩ := h
      refine ⟨by simp [TimeTok.chars], ?_⟩
      intro c hc
      rcases List.mem_append.mp hc with hb | hu
      · exact ⟨(hcl c hb).1, (hcl c hb).2.1, (hcl c hb).2.2.1⟩
      · simp at hu
        subst hu
        exact ⟨by decide, by decide, by decide⟩

lemma timeLoop_tokens :
    ∀ (toks : List TimeTok), (∀ t ∈ toks, t.wf) →
      ∀ (h m s : ℚ),
        timeLoop (toks.map TimeTok.chars) (.fin h) (.fin m) (.fin s) =
          some (.fin (hVal0 toks h), .fin (mVal0 toks m), .fin (sVal0 toks s)) := by
  intro toks
  induction toks with
  | nil => intro _ h m s; rfl
  | cons t rest ih =>
    intro hwf h m s
    have htw := hwf t (by simp)
    have hrest : ∀ u ∈ rest, u.wf := fun u hu => hwf u (by simp [hu])
    cases t with
    | hTok b q =>
      obtain ⟨⟨hne, hcl⟩, hpf⟩ := htw
      have hcont : (b ++ ['h']).contains 'h' = true := by simp
      have hfil : (b ++ ['h']).filter (fun c => decide (c ≠ 'h')) = b := by
        rw [List.filter_append]
        have h1 : b.filter (fun c => decide (c ≠ 'h')) = b :=
          List.filter_eq_self.mpr (fun c hc => by simp [(hcl c hc).2.2.2.1])
        rw [h1]
        simp
      simp only [List.map_cons, TimeTok.chars, timeLoop, hcont, if_true, hfil, hpf]
      rw [ih hrest q m s]
      rfl
    | mTok b q =>
      obtain ⟨⟨hne, hcl⟩, hpf⟩ := htw
      have hch : (b ++ ['m']).contains 'h' = false := by
        rw [Bool.eq_false_iff]
        intro hc
        have hmem : 'h' ∈ b ++ ['m'] := by simpa using hc
        rcases List.mem_append.mp hmem with hb | hm
        · exact (hcl _ hb).2.2.2.1 rfl
        · simp at hm
      have hcont : (b ++ ['m']).contains 'm' = true := by simp
      have hfil : (b ++ ['m']).filter (fun c => decide (c ≠ 'm')) = b := by
        rw [List.filter_append]
        have h1 : b.filter (fun c => decide (c ≠ 'm')) = b :=
          List.filter_eq_self.mpr (fun c hc => by simp [(hcl c hc).2.2.2.2.1])
        rw [h1]
        simp
      simp only [List.map_cons, TimeTok.chars, timeLoop, hch, hcont,
        Bool.false_eq_true, if_false, if_true, hfil, hpf]
      rw [ih hrest h q s]
      rfl
    | sTok b q =>
      obtain ⟨⟨hne, hcl⟩, hpf⟩ := htw
      have hch : (b ++ ['s']).contains 'h' = false := by
        rw [Bool.eq_false_iff]
        intro hc
        have hmem : 'h' ∈ b ++ ['s'] := by simpa using hc
        rcases List.mem_append.mp hmem with hb | hm
        · exact (hcl _ hb).2.2.2.1 rfl
        · simp at hm
      have hcm : (b ++ ['s']).contains 'm' = false := by
        rw [Bool.eq_false_iff]
        intro hc
        have hmem : 'm' ∈ b ++ ['s'] := by simpa using hc
        rcases List.mem_append.mp hmem with hb | hm
        · exact (hcl _ hb).2.2.2.2.1 rfl
        · simp at hm
      have hcont : (b ++ ['s']).contains 's' = true := by simp
      have hfil : (b ++ ['s']).filter (fun c => decide (c ≠ 's')) = b := by
        rw [List.filter_append]
        have h1 : b.filter (fun c => decide (c ≠ 's')) = b :=
          List.filter_eq_self.mpr (fun c hc => by simp [(hcl c hc).2.2.2.2.2])
        rw [h1]
        simp
      simp only [List.map_cons, TimeTok.chars, timeLoop, hch, hcm, hcont,
        Bool.false_eq_true, if_false, if_true, hfil, hpf]
      rw [ih hrest h m q]
      rfl

lemma pyWordsAux_word (w : List Char) (hw : ∀ c ∈ w, pyIsSpace c = false) :
    ∀ (acc rest : List Char), pyWordsAux acc (w ++ rest) = pyWordsAux (w.reverse ++ acc) rest := by
  induction w with
  | nil => intro acc rest; simp
  | cons c w ih =>
    intro acc rest
    have hc := hw c (by simp)
    simp only [List.cons_append, pyWordsAux, hc, Bool.false_eq_true, if_false]
    show pyWordsAux (c :: acc) (w ++ rest) = pyWordsAux ((c :: w).reverse ++ acc) rest
    rw [ih (fun x hx => hw x (by simp [hx])) (c :: acc) rest]
    rw [List.reverse_cons, List.append_assoc]
    rfl

lemma pyWords_joinSpace :
    ∀ (parts : List (List Char)),
      (∀ p ∈ parts, p ≠ [] ∧ ∀ c ∈ p, pyIsSpace c = false) →
      pyWords (joinSpace parts) = parts := by
  intro parts
  induction parts with
  | nil => intro _; rfl
  | cons p ps ih =>
    intro h
    obtain ⟨hp, hpc⟩ := h p (by simp)
    cases ps with
    | nil =>
      show pyWordsAux [] (joinSpace [p]) = [p]
      have hj : joinSpace [p] = p ++ [] := by simp [joinSpace]
      rw [hj, pyWordsAux_word p hpc [] []]
      simp [pyWordsAux, List.isEmpty_iff, hp]
    | cons q qs =>
      show pyWordsAux [] (joinSpace (p :: q :: qs)) = p :: q :: qs
      have hj : joinSpace (p :: q :: qs) = p ++ ' ' :: joinSpace (q :: qs) := rfl
      rw [hj, pyWordsAux_word p hpc [] (' ' :: joinSpace (q :: qs))]
      rw [List.append_nil]
      rw [show pyWordsAux p.reverse (' ' :: joinSpace (q :: qs)) =
          if p.reverse.isEmpty then pyWordsAux [] (joinSpace (q :: qs))
          else p.reverse.reverse :: pyWordsAux [] (joinSpace (q :: qs)) from by
        simp [pyWordsAux, show pyIsSpace ' ' = true from by decide]]
      rw [if_neg (by simp [List.isEmpty_iff, hp]), List.reverse_reverse]
      have hrec := ih (fun r hr => h r (by simp [hr]))
      rw [show pyWords (joinSpace (q :: qs)) = pyWordsAux [] (joinSpace (q :: qs)) from rfl]
        at hrec
      rw [hrec]

lemma mem_joinSpace {c : Char} :
    ∀ {parts : List (List Char)}, c ∈ joinSpace parts →
      c = ' ' ∨ ∃ p ∈ parts, c ∈ p := by
  intro parts
  induction parts with
  | nil => intro h; simp [joinSpace] at h
  | cons p ps ih =>
    cases ps with
    | nil =>
      intro h
      right
      exact ⟨p, by simp, h⟩
    | cons q qs =>
      intro h
      rw [show joinSpace (p :: q :: qs) = p ++ ' ' :: joinSpace (q :: qs) from rfl] at h
      rcases List.mem_append.mp h with h1 | h2
      · right; exact ⟨p, by simp, h1⟩
      · rcases List.mem_cons.mp h2 with rfl | h3
        · left; rfl
        · rcases ih h3 with h4 | ⟨r, hr, hcr⟩
          · left; exact h4
          · right; exact ⟨r, by simp [hr], hcr⟩

/-- C4: the duration parser is exact on the spec's compound examples, and for
every string composed of any subset of the tokens `<number>h`, `<number>m`,
`<number>s` in any order (space separated), the result is the fractional-hour
value `h + m/60 + s/3600` with absent tokens contributing zero. -/
theorem spec_C4_duration_parse :
    (parse_time_string ("1h 30m 45s").data = .fin 1.5125 ∧
     parse_time_string ("45m 30s").data = .fin (91 / 120) ∧
     parse_time_string ("30s").data = .fin (1 / 120) ∧
     parse_time_string ("2h").data = .fin 2) ∧
    (∀ toks : List TimeTok, (∀ t ∈ toks, t.wf) →
      (toks.map TimeTok.kindIdx).Nodup →
      parse_time_string (joinSpace (toks.map TimeTok.chars)) =
        .fin (hVal0 toks 0 + mVal0 toks 0 / 60 + sVal0 toks 0 / 3600)) := by
  constructor
  · refine ⟨?_, ?_, ?_, ?_⟩ <;>
      simp +decide [parse_time_string, pyWords, pyWordsAux, timeLoop, pyAdd, pyDivC,
        parseFloat, stripPyWS, parseUnsigned, parseExpPart, natOfDigits, lowerEq] <;>
      norm_num
  · intro toks hwf _hnodup
    have hfacts : ∀ p ∈ toks.map TimeTok.chars,
        p ≠ [] ∧ ∀ c ∈ p, pyIsSpace c = false ∧ c ≠ ',' ∧ Char.toLower c = c := by
      intro p hp
      rcases List.mem_map.mp hp with ⟨t, ht, rfl⟩
      exact tok_chars_facts (hwf t ht)
    have hlow : (joinSpace (toks.map TimeTok.chars)).map Char.toLower =
        joinSpace (toks.map TimeTok.chars) := by
      apply map_id_of_eq
      intro c hc
      rcases mem_joinSpace hc with rfl | ⟨p, hp, hcp⟩
      · rfl
      · exact ((hfacts p hp).2 c hcp).2.2
    have hfil : (joinSpace (toks.map TimeTok.chars)).filter (fun c => decide (c ≠ ',')) =
        joinSpace (toks.map TimeTok.chars) := by
      apply List.filter_eq_self.mpr
      intro c hc
      rcases mem_joinSpace hc with rfl | ⟨p, hp, hcp⟩
      · decide
      · simp [((hfacts p hp).2 c hcp).2.1]
    unfold parse_time_string
    dsimp only
    rw [hlow, hfil, pyWords_joinSpace _ (fun p hp => ⟨(hfacts p hp).1,
      fun c hc => ((hfacts p hp).2 c hc).1⟩)]
    rw [timeLoop_tokens toks hwf 0 0 0]
    simp [pyAdd, pyDivC]

/-- C4 witness: the general token theorem applied to the single-token list
for `2h`. -/
theorem spec_C4_witness :
    parse_time_string (joinSpace ([TimeTok.hTok ['2'] 2].map TimeTok.chars)) =
      .fin (hVal0 [TimeTok.hTok ['2'] 2] 0 + mVal0 [TimeTok.hTok ['2'] 2] 0 / 60 +
        sVal0 [TimeTok.hTok ['2'] 2] 0 / 3600) := by
  apply spec_C4_duration_parse.2
  · intro t ht
    simp only [List.mem_singleton] at ht
    subst ht
    refine ⟨⟨by decide, by decide⟩, ?_⟩
    show parseFloat ['2'] = some (.fin 2)
    simp +decide [parseFloat, stripPyWS, parseUnsigned, parseExpPart, natOfDigits, lowerEq]
    try norm_num
  · decide

/-! ## C3 -/

lemma checkVertex_none {l : List Char} (h : vertexWF l) (lineNo : Nat) :
    checkVertex l lineNo = none := by
  obtain ⟨h1, h2, h3⟩ := h
  unfold checkVertex
  rw [if_neg (by simp [h1])]
  dsimp only
  rw [if_neg (by simp only [h2]; simp)]
  rw [if_neg ?hny]
  case hny =>
    rw [Bool.not_eq_true, List.any_eq_false]
    intro x hx
    intro hnone
    rw [Option.isNone_iff_eq_none] at hnone
    have := h3 x hx
    rw [hnone] at this
    exact absurd this (by decide)

lemma checkVertex_some {l : List Char}
    (h : startsWithL (stripPyWS l) ("vertex").data = false) (lineNo : Nat) :
    ∃ e, checkVertex l lineNo = some e := by
  unfold checkVertex
  rw [if_pos (by simp [h])]
  exact ⟨_, rfl⟩

lemma vertexWF_not_outer {l : List Char} (h : vertexWF l) :
    ¬ stripPyWS l = ("outer loop").data := by
  intro he
  have := h.1
  rw [he] at this
  exact absurd this (by decide)

lemma prefix_head {s p : List Char} (h : p.isPrefixOf s = true) (c : Char)
    (hp : p.head? = some c) : s.head? = some c := by
  cases p with
  | nil => cases hp
  | cons a t =>
    cases s with
    | nil => simp [List.isPrefixOf] at h
    | cons b u =>
      simp only [List.isPrefixOf, Bool.and_eq_true, beq_iff_eq] at h
      simp only [List.head?_cons, Option.some.injEq] at hp ⊢
      rw [← h.1, hp]

lemma vertexWF_not_facet {l : List Char} (h : vertexWF l) :
    startsWithL (stripPyWS l) ("facet normal").data = false := by
  rcases hf : startsWithL (stripPyWS l) ("facet normal").data with _ | _
  · rfl
  · exfalso
    have hv1 := prefix_head (p := ("vertex").data) h.1 'v' rfl
    have hv2 := prefix_head (p := ("facet normal").data) hf 'f' rfl
    rw [hv1] at hv2
    exact absurd hv2 (by decide)

lemma endloop_not_vertex {l : List Char} (h : stripPyWS l = ("endloop").data) :
    startsWithL (stripPyWS l) ("vertex").data = false := by
  rw [h]; decide

lemma endloop_not_facet {l : List Char} (h : stripPyWS l = ("endloop").data) :
    startsWithL (stripPyWS l) ("facet normal").data = false := by
  rw [h]; decide

lemma endfacet_not_facet {l : List Char} (h : stripPyWS l = ("endfacet").data) :
    startsWithL (stripPyWS l) ("facet normal").data = false := by
  rw [h]; decide

lemma outer_not_facet {l : List Char} (h : stripPyWS l = ("outer loop").data) :
    startsWithL (stripPyWS l) ("facet normal").data = false := by
  rw [h]; decide

lemma facet_ne_endfacet {l : List Char}
    (h : startsWithL (stripPyWS l) ("facet normal").data = true) :
    ¬ stripPyWS l = ("endfacet").data := by
  intro he
  rw [he] at h
  exact absurd h (by decide)

lemma endsolid_ne_endfacet {l : List Char}
    (h : startsWithL (stripPyWS l) ("endsolid").data = true) :
    ¬ stripPyWS l = ("endfacet").data := by
  intro he
  rw [he] at h
  exact absurd h (by decide)

lemma asciiLoop_skip (ln : List Char) (rest : List (List Char)) (i count : Nat)
    (hf : startsWithL (stripPyWS ln) ("facet normal").data = false)
    (hrest : rest ≠ []) :
    asciiLoop (ln :: rest) i count = asciiLoop rest (i + 1) count := by
  cases rest with
  | nil => cases hrest rfl
  | cons a t =>
    conv_lhs => unfold asciiLoop
    simp only [hf, Bool.false_eq_true, if_false]

lemma asciiLoop_block (b : FacetBlk) (hb : b.wf) (rest : List (List Char)) (i count : Nat)
    (hrest : rest ≠ []) :
    asciiLoop (b.lines ++ rest) i count = asciiLoop rest (i + 7) (count + 1) := by
  obtain ⟨hfl, hol, hva, hvb, hvc, hel, hef⟩ := hb
  cases rest with
  | nil => cases hrest rfl
  | cons r t =>
    show asciiLoop (b.fl :: b.ol :: b.va :: b.vb :: b.vc :: b.el :: b.ef :: r :: t) i count =
      asciiLoop (r :: t) (i + 7) (count + 1)
    conv_lhs => unfold asciiLoop
    simp only [hfl, eq_self_iff_true, if_true, hol, checkVertex_none hva,
      checkVertex_none hvb, checkVertex_none hvc, hel, hef]
    simp

lemma asciiLoop_blocks (blocks : List FacetBlk) :
    ∀ (rest : List (List Char)) (i count : Nat), (∀ b ∈ blocks, b.wf) → rest ≠ [] →
      asciiLoop ((blocks.map FacetBlk.lines).flatten ++ rest) i count =
        asciiLoop rest (i + 7 * blocks.length) (count + blocks.length) := by
  induction blocks with
  | nil => intro rest i count _ _; simp
  | cons b bs ih =>
    intro rest i count hwf hrest
    have hb := hwf b (by simp)
    have hbs : ∀ x ∈ bs, x.wf := fun x hx => hwf x (by simp [hx])
    rw [List.map_cons, List.flatten_cons, List.append_assoc]
    have hne : (bs.map FacetBlk.lines).flatten ++ rest ≠ [] := by
      intro he
      rcases List.append_eq_nil.mp he with ⟨_, h2⟩
      exact hrest h2
    rw [asciiLoop_block b hb _ i count hne]
    rw [ih rest (i + 7) (count + 1) hbs hrest]
    simp only [List.length_cons]
    have e1 : i + 7 + 7 * bs.length = i + 7 * (bs.length + 1) := by omega
    have e2 : count + 1 + bs.length = count + (bs.length + 1) := by omega
    rw [e1, e2]

lemma splitNLAux_line (l : List Char) (hl : '\n' ∉ l) :
    ∀ (acc rest : List Char), splitNLAux acc (l ++ rest) = splitNLAux (l.reverse ++ acc) rest := by
  induction l with
  | nil => intro acc rest; simp
  | cons c w ih =>
    intro acc rest
    have hc : (c = '\n') = False := by
      simp only [eq_iff_iff, iff_false]
      intro he
      exact hl (by simp [he])
    simp only [List.cons_append, splitNLAux, hc, if_false]
    show splitNLAux (c :: acc) (w ++ rest) = splitNLAux ((c :: w).reverse ++ acc) rest
    rw [ih (fun hx => hl (by simp [hx])) (c :: acc) rest]
    rw [List.reverse_cons, List.append_assoc]
    rfl

lemma splitNL_joinNL :
    ∀ (lines : List (List Char)), lines ≠ [] → (∀ l ∈ lines, '\n' ∉ l) →
      splitNL (joinNL lines) = lines := by
  intro lines
  induction lines with
  | nil => intro h _; cases h rfl
  | cons p ps ih =>
    intro _ h
    have hp := h p (by simp)
    cases ps with
    | nil =>
      show splitNLAux [] (joinNL [p]) = [p]
      have hj : joinNL [p] = p ++ [] := by simp [joinNL]
      rw [hj, splitNLAux_line p hp [] []]
      simp [splitNLAux]
    | cons q qs =>
      show splitNLAux [] (joinNL (p :: q :: qs)) = p :: q :: qs
      have hj : joinNL (p :: q :: qs) = p ++ '\n' :: joinNL (q :: qs) := rfl
      rw [hj, splitNLAux_line p hp [] ('\n' :: joinNL (q :: qs))]
      rw [List.append_nil]
      rw [show splitNLAux p.reverse ('\n' :: joinNL (q :: qs)) =
          p.reverse.reverse :: splitNLAux [] (joinNL (q :: qs)) from by
        simp [splitNLAux]]
      rw [List.reverse_reverse]
      have hrec := ih (by simp) (fun r hr => h r (by simp [hr]))
      rw [show splitNL (joinNL (q :: qs)) = splitNLAux [] (joinNL (q :: qs)) from rfl] at hrec
      rw [hrec]

lemma checkVertex_not_vertex {l : List Char}
    (h : startsWithL (stripPyWS l) ("vertex").data = false) (lineNo : Nat) :
    checkVertex l lineNo = some ("Expected vertex at line ".data ++ natToChars lineNo) := by
  unfold checkVertex
  rw [if_pos (by simp [h])]

lemma asciiLoop_badBlock (b : FacetBlk) (hb : b.wf) (slot : Nat)
    (h1 : 1 ≤ slot) (h6 : slot ≤ 6) (r : List Char) (t : List (List Char)) (i count : Nat)
    (hhead : ¬ stripPyWS r = ("endfacet").data) :
    ∃ e, asciiLoop (b.linesDrop slot ++ r :: t) i count = .error e := by
  obtain ⟨hfl, hol, hva, hvb, hvc, hel, hef⟩ := hb
  interval_cases slot
  · -- outer-loop line removed: the first vertex line is not `outer loop`
    refine ⟨("Expected \x27outer loop\x27 at line ".data ++ natToChars (i + 2)), ?_⟩
    show asciiLoop (b.fl :: b.va :: b.vb :: b.vc :: b.el :: b.ef :: r :: t) i count = _
    conv_lhs => unfold asciiLoop
    simp only [hfl, eq_self_iff_true, if_true]
    rw [if_pos (vertexWF_not_outer hva)]
  · -- first vertex line removed: `endloop` arrives where a vertex is expected
    refine ⟨("Expected vertex at line ".data ++ natToChars (i + 5)), ?_⟩
    show asciiLoop (b.fl :: b.ol :: b.vb :: b.vc :: b.el :: b.ef :: r :: t) i count = _
    conv_lhs => unfold asciiLoop
    simp only [hfl, hol, eq_self_iff_true, if_true, not_true, if_false,
      checkVertex_none hvb, checkVertex_none hvc,
      checkVertex_not_vertex (endloop_not_vertex hel)]
  · -- second vertex line removed
    refine ⟨("Expected vertex at line ".data ++ natToChars (i + 5)), ?_⟩
    show asciiLoop (b.fl :: b.ol :: b.va :: b.vc :: b.el :: b.ef :: r :: t) i count = _
    conv_lhs => unfold asciiLoop
    simp only [hfl, hol, eq_self_iff_true, if_true, not_true, if_false,
      checkVertex_none hva, checkVertex_none hvc,
      checkVertex_not_vertex (endloop_not_vertex hel)]
  · -- third vertex line removed
    refine ⟨("Expected vertex at line ".data ++ natToChars (i + 5)), ?_⟩
    show asciiLoop (b.fl :: b.ol :: b.va :: b.vb :: b.el :: b.ef :: r :: t) i count = _
    conv_lhs => unfold asciiLoop
    simp only [hfl, hol, eq_self_iff_true, if_true, not_true, if_false,
      checkVertex_none hva, checkVertex_none hvb,
      checkVertex_not_vertex (endloop_not_vertex hel)]
  · -- endloop line removed: `endfacet` arrives where `endloop` is expected
    refine ⟨("Expected \x27endloop\x27 at line ".data ++ natToChars (i + 6)), ?_⟩
    show asciiLoop (b.fl :: b.ol :: b.va :: b.vb :: b.vc :: b.ef :: r :: t) i count = _
    conv_lhs => unfold asciiLoop
    simp only [hfl, hol, eq_self_iff_true, if_true, not_true, if_false,
      checkVertex_none hva, checkVertex_none hvb, checkVertex_none hvc]
    rw [if_pos (by rw [hef]; decide)]
  · -- endfacet line removed: the following line is not `endfacet`
    refine ⟨("Expected \x27endfacet\x27 at line ".data ++ natToChars (i + 7)), ?_⟩
    show asciiLoop (b.fl :: b.ol :: b.va :: b.vb :: b.vc :: b.el :: r :: t) i count = _
    conv_lhs => unfold asciiLoop
    simp only [hfl, hol, hel, eq_self_iff_true, if_true, not_true, if_false,
      checkVertex_none hva, checkVertex_none hvb, checkVertex_none hvc]
    rw [if_pos hhead]

lemma asciiLoop_orphan (b : FacetBlk) (hb : b.wf) (rest : List (List Char)) (i count : Nat)
    (hrest : rest ≠ []) :
    asciiLoop (b.linesDrop 0 ++ rest) i count = asciiLoop rest (i + 6) count := by
  obtain ⟨hfl, hol, hva, hvb, hvc, hel, hef⟩ := hb
  show asciiLoop (b.ol :: b.va :: b.vb :: b.vc :: b.el :: b.ef :: rest) i count =
    asciiLoop rest (i + 6) count
  rw [asciiLoop_skip _ _ _ _ (outer_not_facet hol) (by simp),
    asciiLoop_skip _ _ _ _ (vertexWF_not_facet hva) (by simp),
    asciiLoop_skip _ _ _ _ (vertexWF_not_facet hvb) (by simp),
    asciiLoop_skip _ _ _ _ (vertexWF_not_facet hvc) (by simp),
    asciiLoop_skip _ _ _ _ (endloop_not_facet hel) (by simp [hrest]),
    asciiLoop_skip _ _ _ _ (endfacet_not_facet hef) hrest]

lemma getLastD_concat_chars (x : List Char) :
    ∀ (l : List (List Char)) (d : List Char), (l ++ [x]).getLastD d = x := by
  intro l
  induction l with
  | nil => intro d; rfl
  | cons a t ih =>
    intro d
    rw [List.cons_append, List.getLastD_cons]
    exact ih a

lemma validateAscii_last_cond (lines : List (List Char)) (esl : List Char)
    (h : lines.getLast? = some esl)
    (hesl : startsWithL (stripPyWS esl) ("endsolid").data = true) :
    startsWithL (stripPyWS (lines.getLastD [])) ("endsolid").data = true := by
  rw [List.getLastD_eq_getLast?, h]
  exact hesl

/-- C3 amended: a well-formed `solid…endsolid` file with N facet blocks
(1 ≤ N ≤ 1,000,000) is accepted with exactly N triangles counted; removing an
outer-loop, vertex, endloop or endfacet line of any block is always rejected;
but a removed facet-normal line merely leaves that block uncounted: the file
is rejected for it only when no counted facet remains (N = 1) — see the
counterexample for N ≥ 2. -/
theorem spec_C3_ascii_structure :
    (∀ (blocks : List FacetBlk) (sl esl : List Char),
      (∀ b ∈ blocks, b.wf) →
      (∀ l ∈ sl :: (blocks.map FacetBlk.lines).flatten ++ [esl], noNL l) →
      startsWithL (stripPyWS sl) ("solid").data = true →
      startsWithL (stripPyWS esl) ("endsolid").data = true →
      stripPyWS (joinNL (sl :: (blocks.map FacetBlk.lines).flatten ++ [esl])) =
        joinNL (sl :: (blocks.map FacetBlk.lines).flatten ++ [esl]) →
      1 ≤ blocks.length → blocks.length ≤ 1000000 →
      validate_ascii_stl (joinNL (sl :: (blocks.map FacetBlk.lines).flatten ++ [esl])) =
        (true, none) ∧
      asciiCount (joinNL (sl :: (blocks.map FacetBlk.lines).flatten ++ [esl])) =
        .ok blocks.length) ∧
    (∀ (pre suf : List FacetBlk) (bad : FacetBlk) (slot : Nat) (sl esl : List Char),
      (∀ b ∈ pre, b.wf) → (∀ b ∈ suf, b.wf) → bad.wf → 1 ≤ slot → slot ≤ 6 →
      startsWithL (stripPyWS sl) ("solid").data = true →
      startsWithL (stripPyWS esl) ("endsolid").data = true →
      (validateAsciiLines (sl :: ((pre.map FacetBlk.lines).flatten ++
        (bad.linesDrop slot ++ ((suf.map FacetBlk.lines).flatten ++ [esl]))))).1 = false) ∧
    (∀ (bad : FacetBlk) (sl esl : List Char),
      bad.wf →
      startsWithL (stripPyWS sl) ("solid").data = true →
      startsWithL (stripPyWS esl) ("endsolid").data = true →
      (validateAsciiLines (sl :: (bad.linesDrop 0 ++ [esl]))).1 = false) := by
  refine ⟨?_, ?_, ?_⟩
  · intro blocks sl esl hwf hnl hsl hesl hstrip hn1 hn2
    have hne : sl :: (blocks.map FacetBlk.lines).flatten ++ [esl] ≠ [] := by simp
    have hsplit : splitNL (stripPyWS
        (joinNL (sl :: (blocks.map FacetBlk.lines).flatten ++ [esl]))) =
        sl :: (blocks.map FacetBlk.lines).flatten ++ [esl] := by
      rw [hstrip]
      exact splitNL_joinNL _ hne hnl
    have hloop : asciiLoop
        ((sl :: (blocks.map FacetBlk.lines).flatten ++ [esl]).drop 1) 1 0 =
        .ok blocks.length := by
      show asciiLoop ((blocks.map FacetBlk.lines).flatten ++ [esl]) 1 0 = _
      rw [asciiLoop_blocks blocks [esl] 1 0 hwf (by simp)]
      show Except.ok (0 + blocks.length) = _
      rw [Nat.zero_add]
    have hlast : (sl :: (blocks.map FacetBlk.lines).flatten ++ [esl]).getLast? = some esl := by
      rw [show sl :: (blocks.map FacetBlk.lines).flatten ++ [esl] =
        (sl :: (blocks.map FacetBlk.lines).flatten) ++ [esl] from by simp]
      exact List.getLast?_concat _
    constructor
    · show validateAsciiLines _ = (true, none)
      rw [hsplit]
      unfold validateAsciiLines
      rw [if_neg (by simp [hsl]),
        if_neg (not_not_intro (validateAscii_last_cond _ esl hlast hesl))]
      rw [hloop]
      dsimp only
      rw [if_neg (by omega), if_neg (by omega)]
    · show asciiLoop _ 1 0 = _
      rw [hsplit]
      exact hloop
  · intro pre suf bad slot sl esl hpre hsuf hbad h1 h6 hsl hesl
    have hbadblock : ∀ (j cnt : Nat), ∃ e, asciiLoop (bad.linesDrop slot ++
        ((suf.map FacetBlk.lines).flatten ++ [esl])) j cnt = .error e := by
      intro j cnt
      cases suf with
      | nil =>
        exact asciiLoop_badBlock bad hbad slot h1 h6 esl [] j cnt
          (endsolid_ne_endfacet hesl)
      | cons b bs =>
        have hbwf := hsuf b (by simp)
        show ∃ e, asciiLoop (bad.linesDrop slot ++
          (b.fl :: (b.ol :: b.va :: b.vb :: b.vc :: b.el :: b.ef ::
            ((bs.map FacetBlk.lines).flatten ++ [esl])))) j cnt = .error e
        exact asciiLoop_badBlock bad hbad slot h1 h6 b.fl _ j cnt
          (facet_ne_endfacet hbwf.1)
    obtain ⟨e, he⟩ := hbadblock (1 + 7 * pre.length) (0 + pre.length)
    unfold validateAsciiLines
    rw [if_neg (by simp [hsl])]
    have hlast : (sl :: ((pre.map FacetBlk.lines).flatten ++
        (bad.linesDrop slot ++ ((suf.map FacetBlk.lines).flatten ++ [esl])))).getLast?
        = some esl := by
      rw [show sl :: ((pre.map FacetBlk.lines).flatten ++
          (bad.linesDrop slot ++ ((suf.map FacetBlk.lines).flatten ++ [esl]))) =
        (sl :: ((pre.map FacetBlk.lines).flatten ++
          (bad.linesDrop slot ++ (suf.map FacetBlk.lines).flatten))) ++ [esl] from by
        simp [List.append_assoc]]
      exact List.getLast?_concat _
    rw [if_neg (not_not_intro (validateAscii_last_cond _ esl hlast hesl))]
    have hloop : asciiLoop ((pre.map FacetBlk.lines).flatten ++
        (bad.linesDrop slot ++ ((suf.map FacetBlk.lines).flatten ++ [esl]))) 1 0 =
        .error e := by
      rw [asciiLoop_blocks pre _ 1 0 hpre (by
        intro hcontra
        rcases List.append_eq_nil.mp hcontra with ⟨_, h2⟩
        rcases List.append_eq_nil.mp h2 with ⟨_, h3⟩
        cases h3)]
      exact he
    simp only [List.drop_succ_cons, List.drop_zero]
    rw [hloop]
  · intro bad sl esl hbad hsl hesl
    unfold validateAsciiLines
    rw [if_neg (by simp [hsl])]
    have hlast : (sl :: (bad.linesDrop 0 ++ [esl])).getLast? = some esl := by
      rw [show sl :: (bad.linesDrop 0 ++ [esl]) =
        (sl :: bad.linesDrop 0) ++ [esl] from by simp]
      exact List.getLast?_concat _
    rw [if_neg (not_not_intro (validateAscii_last_cond _ esl hlast hesl))]
    have hloop : asciiLoop (bad.linesDrop 0 ++ [esl]) 1 0 = .ok 0 := by
      rw [asciiLoop_orphan bad hbad [esl] 1 0 (by simp)]
      rfl
    simp only [List.drop_succ_cons, List.drop_zero]
    rw [hloop]
    dsimp only
    rw [if_pos rfl]

set_option maxRecDepth 1000000 in
/-- C3 counterexample: removing the `facet normal` line of the first block of
a well-formed two-facet file does not cause rejection — the mutilated file is
accepted with one triangle counted, refuting "removing any single required
line … causes validation to reject the file". -/
theorem spec_C3_counterexample :
    validate_ascii_stl (asciiGood).data = (true, none) ∧
    asciiCount (asciiGood).data = .ok 2 ∧
    validate_ascii_stl (asciiNoFacetLine).data = (true, none) ∧
    asciiCount (asciiNoFacetLine).data = .ok 1 :=
  ⟨rfl, rfl, rfl, rfl⟩

set_option maxRecDepth 1000000 in
/-- C3 witness: the amended theorem applied to a concrete one-block file, to
a concrete removed-vertex file, and to a concrete removed-facet-line
single-block file. -/
theorem spec_C3_witness :
    (validate_ascii_stl (joinNL (("solid w").data ::
        ([sampleBlk].map FacetBlk.lines).flatten ++ [("endsolid w").data])) = (true, none) ∧
      asciiCount (joinNL (("solid w").data ::
        ([sampleBlk].map FacetBlk.lines).flatten ++ [("endsolid w").data])) = .ok 1) ∧
    (validateAsciiLines (("solid w").data ::
      ((([] : List FacetBlk).map FacetBlk.lines).flatten ++
        (sampleBlk.linesDrop 2 ++ ((([] : List FacetBlk).map FacetBlk.lines).flatten ++
          [("endsolid w").data]))))).1 = false ∧
    (validateAsciiLines (("solid w").data ::
      (sampleBlk.linesDrop 0 ++ [("endsolid w").data]))).1 = false := by
  refine ⟨?_, ?_, ?_⟩
  · exact spec_C3_ascii_structure.1 [sampleBlk] ("solid w").data ("endsolid w").data
      (by intro b hb; simp only [List.mem_singleton] at hb; subst hb;
          refine ⟨by decide, by decide, ?_, ?_, ?_, by decide, by decide⟩ <;>
            (unfold vertexWF; refine ⟨by decide, by decide, by decide⟩))
      (by intro l hl; unfold noNL; fin_cases hl <;> decide)
      (by decide) (by decide) (by decide) (by decide) (by decide)
  · exact spec_C3_ascii_structure.2.1 [] [] sampleBlk 2 ("solid w").data ("endsolid w").data
      (by intro b hb; cases hb) (by intro b hb; cases hb)
      (by refine ⟨by decide, by decide, ?_, ?_, ?_, by decide, by decide⟩ <;>
            (unfold vertexWF; refine ⟨by decide, by decide, by decide⟩))
      (by decide) (by decide) (by decide) (by decide)
  · exact spec_C3_ascii_structure.2.2 sampleBlk ("solid w").data ("endsolid w").data
      (by refine ⟨by decide, by decide, ?_, ?_, ?_, by decide, by decide⟩ <;>
            (unfold vertexWF; refine ⟨by decide, by decide, by decide⟩))
      (by decide) (by decide)
